import Mathlib

/-!
Verification of the Tutor-Phone streaming media session engine.

Shallow embedding of the session lifecycle, playback scheduler, PCM codec,
transport encoding, teardown routine and transcript accumulator of the
repository (src/App.tsx, src/unnamed/part_000, src/types.ts), together with
theorems settling the stated properties of the specification.
-/

namespace TutorPhone

/-! ## Data model: connection status (src/types.ts) -/

/-- ConnectionStatus from src/types.ts:
type ConnectionStatus = disconnected | connecting | connected | error. -/
inductive ConnectionStatus where
  | disconnected
  | connecting
  | connected
  | error
deriving DecidableEq, Repr

/-! ## PCM codec (Capture Encoder, src/App.tsx lines 127-137, part_000 185-195)

The onaudioprocess callback runs, for each float sample x of the input block,
the statement int16[i] = inputData[i] * 32768.  JavaScript stores into an
Int16Array via ToInt16: truncate toward zero, reduce modulo 2^16, then
reinterpret as a signed 16-bit value.  Multiplying a binary float by the
power of two 32768 is exact, so the samples are modelled as rationals. -/

/-- Truncation toward zero (the JS ToIntegerOrInfinity step of ToInt16). -/
def truncQ (q : ℚ) : Int :=
  if 0 ≤ q then Int.floor q else Int.ceil q

/-- ToInt16: reduce modulo 2^16 and reinterpret as signed (wrap-around). -/
def toInt16 (n : Int) : Int :=
  if 32768 ≤ n % 65536 then n % 65536 - 65536 else n % 65536

/-- One sample of the capture encoder: int16[i] = inputData[i] * 32768
under Int16Array store semantics. -/
def pcm16Sample (x : ℚ) : Int :=
  toInt16 (truncQ (x * 32768))

/-- The whole onaudioprocess PCM16 loop over a block of float samples. -/
def onaudioprocess (xs : List ℚ) : List Int :=
  xs.map pcm16Sample

/-! ## Transport encoding (PCM codec, text side)

Modelled from the spec: the functions encode / decode are imported from
./utils/audioHelpers, a file that is not part of the repository sources;
only their call sites are.  Per the spec (section 4.1) they perform a
reversible binary-to-text transport encoding, exact for every byte
sequence; the call sites pair them with btoa-style base64 text
(mime tags audio/pcm, image/jpeg), so they are modelled as standard
base64 with padding over byte values below 256. -/

/-- The 64-character base64 alphabet. -/
def b64Alphabet : List Char :=
  ("ABCDEFGHIJKLMNOPQRSTUVWXYZabcdefghijklmnopqrstuvwxyz0123456789+/").toList

/-- Character for a six-bit group. -/
def sextetChar (n : Nat) : Char :=
  b64Alphabet.getD n 'A'

/-- Numeric value of an alphabet character (the atob table). -/
def charSextet (c : Char) : Nat :=
  let n := c.toNat
  if 65 ≤ n ∧ n ≤ 90 then n - 65
  else if 97 ≤ n ∧ n ≤ 122 then n - 97 + 26
  else if 48 ≤ n ∧ n ≤ 57 then n - 48 + 52
  else if n = 43 then 62
  else if n = 47 then 63
  else 0

/-- Modelled from the spec: encode (toTransportText) turns a byte buffer
into base64 text, three bytes into four characters, with padding. -/
def encode : List Nat → List Char
  | [] => []
  | [a] =>
      [sextetChar (a / 4), sextetChar (a % 4 * 16), '=', '=']
  | [a, b] =>
      [sextetChar (a / 4), sextetChar (a % 4 * 16 + b / 16),
       sextetChar (b % 16 * 4), '=']
  | a :: b :: c :: rest =>
      sextetChar (a / 4) :: sextetChar (a % 4 * 16 + b / 16) ::
      sextetChar (b % 16 * 4 + c / 64) :: sextetChar (c % 64) :: encode rest

/-- Modelled from the spec: decode (fromTransportText) parses base64 text
back into bytes, honouring the one- and two-character padding forms. -/
def decode : List Char → List Nat
  | c0 :: c1 :: c2 :: c3 :: rest =>
      if c2 = '=' then
        [charSextet c0 * 4 + charSextet c1 / 16]
      else if c3 = '=' then
        [charSextet c0 * 4 + charSextet c1 / 16,
         charSextet c1 % 16 * 16 + charSextet c2 / 4]
      else
        (charSextet c0 * 4 + charSextet c1 / 16) ::
        (charSextet c1 % 16 * 16 + charSextet c2 / 4) ::
        (charSextet c2 % 4 * 64 + charSextet c3) :: decode rest
  | _ => []

theorem charSextet_sextetChar : ∀ n, n < 64 → charSextet (sextetChar n) = n := by
  decide

theorem sextetChar_ne_pad : ∀ n, n < 64 → sextetChar n ≠ '=' := by
  decide

/-- C6: for every byte buffer b (all values below 256, zero bytes and the
full byte range included), fromTransportText (toTransportText b) = b: the
binary-to-text transport encoding round-trips exactly. -/
theorem decode_encode_roundtrip :
    ∀ bs : List Nat, (∀ b ∈ bs, b < 256) → decode (encode bs) = bs
  | [], _ => by simp [encode, decode]
  | [a], h => by
    have ha : a < 256 := h a (by simp)
    have h0 : a / 4 < 64 := by omega
    have h1 : a % 4 * 16 < 64 := by omega
    simp only [encode, decode, if_true,
      charSextet_sextetChar _ h0, charSextet_sextetChar _ h1,
      List.cons.injEq, and_true]
    omega
  | [a, b], h => by
    have ha : a < 256 := h a (by simp)
    have hb : b < 256 := h b (by simp)
    have h0 : a / 4 < 64 := by omega
    have h1 : a % 4 * 16 + b / 16 < 64 := by omega
    have h2 : b % 16 * 4 < 64 := by omega
    simp only [encode, decode, if_neg (sextetChar_ne_pad _ h2), if_true,
      charSextet_sextetChar _ h0, charSextet_sextetChar _ h1,
      charSextet_sextetChar _ h2, List.cons.injEq, and_true]
    omega
  | a :: b :: c :: rest, h => by
    have ha : a < 256 := h a (by simp)
    have hb : b < 256 := h b (by simp)
    have hc : c < 256 := h c (by simp)
    have h0 : a / 4 < 64 := by omega
    have h1 : a % 4 * 16 + b / 16 < 64 := by omega
    have h2 : b % 16 * 4 + c / 64 < 64 := by omega
    have h3 : c % 64 < 64 := by omega
    have ih := decode_encode_roundtrip rest (fun x hx => h x (by simp [hx]))
    simp only [encode, decode, if_neg (sextetChar_ne_pad _ h2),
      if_neg (sextetChar_ne_pad _ h3),
      charSextet_sextetChar _ h0, charSextet_sextetChar _ h1,
      charSextet_sextetChar _ h2, charSextet_sextetChar _ h3, ih,
      List.cons.injEq, and_true]
    omega

/-- Witness for C6 at a concrete buffer containing a zero byte, the top
byte 255, and a length exercising the padding path. -/
theorem decode_encode_roundtrip_witness :
    (∀ b ∈ [0, 255, 128, 1], b < 256) ∧
      decode (encode [0, 255, 128, 1]) = [0, 255, 128, 1] :=
  ⟨by decide, decode_encode_roundtrip [0, 255, 128, 1] (by decide)⟩

theorem truncQ_bounds (q : ℚ) (hlo : -(32768 : ℚ) ≤ q) (hhi : q < 32768) :
    -32768 ≤ truncQ q ∧ truncQ q < 32768 := by
  unfold truncQ
  split
  · constructor
    · have : (0 : Int) ≤ Int.floor q := Int.floor_nonneg.mpr (by assumption)
      omega
    · have : Int.floor q < (32768 : Int) := by
        rw [Int.floor_lt]
        exact_mod_cast hhi
      omega
  · constructor
    · have h1 : Int.ceil ((-32768 : Int) : ℚ) ≤ Int.ceil q := by
        apply Int.ceil_le_ceil
        exact_mod_cast hlo
      rw [Int.ceil_intCast] at h1
      omega
    · have : Int.ceil q ≤ (0 : Int) := by
        rw [Int.ceil_le]
        push_cast
        linarith [not_le.mp (by assumption : ¬(0:ℚ) ≤ q)]
      omega

/-- C7: the capture encoder scales each sample by 32768 and truncates to a
signed 16-bit integer, with no dithering and no clipping guard.  For
in-range samples the stored value is exactly the truncated scaled sample;
every stored value lies in the signed 16-bit range and is congruent to the
truncated scaled sample modulo 2^16 (wrap-around); the out-of-range sample
1 wraps to -32768 instead of clamping to 32767. -/
theorem pcm16_truncates_and_wraps :
    (∀ xs : List ℚ, onaudioprocess xs = xs.map pcm16Sample) ∧
    (∀ x : ℚ, -1 ≤ x → x < 1 → pcm16Sample x = truncQ (x * 32768)) ∧
    (∀ x : ℚ, -32768 ≤ pcm16Sample x ∧ pcm16Sample x < 32768 ∧
      pcm16Sample x % 65536 = truncQ (x * 32768) % 65536) ∧
    pcm16Sample 1 = -32768 := by
  refine ⟨fun xs => rfl, ?_, ?_, ?_⟩
  · intro x h1 h2
    have hq1 : -(32768 : ℚ) ≤ x * 32768 := by linarith
    have hq2 : x * 32768 < 32768 := by linarith
    obtain ⟨hl, hr⟩ := truncQ_bounds _ hq1 hq2
    simp only [pcm16Sample, toInt16]
    split <;> omega
  · intro x
    simp only [pcm16Sample, toInt16]
    split <;> omega
  · have h : ((1 : ℚ) * 32768) = ((32768 : ℤ) : ℚ) := by norm_num
    rw [pcm16Sample, truncQ, h, if_pos (by norm_num), Int.floor_intCast]
    decide

/-- Witness for C7: the in-range sample 1/2 encodes to exactly 16384. -/
theorem pcm16_witness : pcm16Sample (1/2) = 16384 := by
  have h := pcm16_truncates_and_wraps.2.1 (1/2) (by norm_num) (by norm_num)
  rw [h]
  have h2 : ((1 : ℚ)/2 * 32768) = ((16384 : ℤ) : ℚ) := by norm_num
  rw [truncQ, h2, if_pos (by norm_num), Int.floor_intCast]

/-! ## Audio Buffer Builder (decodeAudioData)

Modelled from the spec: decodeAudioData is imported from
./utils/audioHelpers, which is not part of the repository sources.  Per the
spec (section 4.2) it interprets the byte buffer as interleaved signed
16-bit little-endian samples, lays out channelCount channels into a buffer
tagged with the declared sample rate, and fails with a DecodeError when the
byte length is not a multiple of channelCount * 2. -/

/-- A decoded playable audio buffer: frame count per channel and rate. -/
structure AudioBuffer where
  numChannels : Nat
  length : Nat
  sampleRate : ℚ
deriving DecidableEq, Repr

/-- Duration in seconds of a decoded buffer. -/
def AudioBuffer.duration (b : AudioBuffer) : ℚ :=
  (b.length : ℚ) / b.sampleRate

/-- Modelled from the spec: decodeAudioData (Audio Buffer Builder). -/
def decodeAudioData (bytes : List Nat) (sampleRate : ℚ) (numChannels : Nat) :
    Except String AudioBuffer :=
  if bytes.length % (numChannels * 2) = 0 then
    Except.ok
      { numChannels := numChannels
        length := bytes.length / (numChannels * 2)
        sampleRate := sampleRate }
  else
    Except.error "DecodeError"

/-! ## Playback Scheduler (onmessage audio path and interruption)

src/App.tsx lines 201-226 and part_000 lines 219-248.  A received audio
chunk is handled by
  nextStartTime := max nextStartTime ctx.currentTime;
  buffer := decodeAudioData ...;  source.start(nextStartTime);
  nextStartTime := nextStartTime + buffer.duration;
  audioSources.add(source)
and the interrupted flag by force-stopping every in-flight source inside
try/catch, clearing the set and resetting nextStartTime to 0. -/

/-- An AudioBufferSourceNode held in the in-flight set.  stopRaises records
whether calling stop() on it throws (a source whose playback already ended
throws an InvalidStateError). -/
structure SourceNode where
  id : Nat
  stopRaises : Bool
deriving DecidableEq, Repr

/-- A scheduled playback voice: start time and duration, in seconds. -/
structure Voice where
  start : ℚ
  dur : ℚ
deriving DecidableEq, Repr

/-- The voices created by feeding the scheduler a sequence of chunks, each
given as (device clock at arrival, decoded buffer duration), starting from
watermark w.  Follows src/App.tsx lines 204-217: re-anchor the watermark
with max, start the voice there, advance by the duration. -/
def voicesOf (w : ℚ) : List (ℚ × ℚ) → List Voice
  | [] => []
  | (c, d) :: rest => { start := max w c, dur := d } :: voicesOf (max w c + d) rest

/-- The watermark value read (used as a start time) at each chunk. -/
def watermarkReads (w : ℚ) : List (ℚ × ℚ) → List ℚ
  | [] => []
  | (c, d) :: rest => max w c :: watermarkReads (max w c + d) rest

/-- The claimed start-time sequence: t, t + d1, t + d1 + d2, ... -/
def startTimes (t : ℚ) : List ℚ → List ℚ
  | [] => []
  | d :: ds => t :: startTimes (t + d) ds

/-- No-underrun condition: at each chunk the device playback clock has not
passed the watermark (scheduled audio is still playing when the next chunk
arrives, so playback stays back-to-back with no interruption). -/
def backToBack (w : ℚ) : List (ℚ × ℚ) → Prop
  | [] => True
  | (c, d) :: rest => c ≤ w ∧ backToBack (w + d) rest

theorem voicesOf_starts_of_backToBack (chunks : List (ℚ × ℚ)) :
    ∀ w : ℚ, backToBack w chunks →
      (voicesOf w chunks).map Voice.start = startTimes w (chunks.map Prod.snd) := by
  induction chunks with
  | nil => intro w _; rfl
  | cons cd rest ih =>
    intro w h
    obtain ⟨hc, hrest⟩ := h
    simp only [voicesOf, List.map_cons, startTimes, max_eq_left hc, List.cons.injEq,
      true_and]
    exact ih (w + cd.2) hrest

theorem watermarkReads_ge (chunks : List (ℚ × ℚ)) :
    ∀ w : ℚ, List.Forall₂ (fun r cd => (cd : ℚ × ℚ).1 ≤ r)
      (watermarkReads w chunks) chunks := by
  induction chunks with
  | nil => intro w; exact List.Forall₂.nil
  | cons cd rest ih =>
    intro w
    exact List.Forall₂.cons (le_max_right w cd.1) (ih (max w cd.1 + cd.2))

/-- C2: with no interruption and no playback underrun after the first
chunk, the N voices created for N inbound chunks have start times
t, t + d1, t + d1 + d2, ... in FIFO order, where t is the watermark
re-anchored to the device clock at the first chunk and the di are the
decoded buffer durations (monotonic, gapless, non-overlapping back-to-back
layout); moreover the watermark value read at each step is at least the
device playback clock at that step, for every chunk sequence. -/
theorem scheduler_gapless_fifo (w c1 d1 : ℚ) (rest : List (ℚ × ℚ))
    (hb : backToBack (max w c1 + d1) rest) :
    (voicesOf w ((c1, d1) :: rest)).map Voice.start =
      startTimes (max w c1) (((c1, d1) :: rest).map Prod.snd) ∧
    List.Forall₂ (fun r cd => (cd : ℚ × ℚ).1 ≤ r)
      (watermarkReads w ((c1, d1) :: rest)) ((c1, d1) :: rest) := by
  constructor
  · simp only [voicesOf, List.map_cons, startTimes, List.cons.injEq, true_and]
    exact voicesOf_starts_of_backToBack rest (max w c1 + d1) hb
  · exact watermarkReads_ge ((c1, d1) :: rest) w

/-- Witness for C2: three chunks of durations 2, 3, 1 arriving with device
clocks 5, 6, 9 on watermark 0 produce voices starting at 5, 7, 10. -/
theorem scheduler_gapless_fifo_witness :
    backToBack (max 0 5 + 2) [(6, 3), (9, 1)] ∧
      (voicesOf 0 [((5 : ℚ), (2 : ℚ)), (6, 3), (9, 1)]).map Voice.start =
        [5, 7, 10] := by
  have hb : backToBack (max (0 : ℚ) 5 + 2) [(6, 3), (9, 1)] := by
    refine ⟨by norm_num, by norm_num, trivial⟩
  have h := scheduler_gapless_fifo 0 5 2 [(6, 3), (9, 1)] hb
  refine ⟨hb, h.1.trans ?_⟩
  norm_num [startTimes]

/-! ## Interrupt handler (App.tsx lines 220-226, part_000 244-248) -/

/-- Scheduler state owned by the playback path: the watermark
(nextStartTimeRef) and the in-flight set (audioSourcesRef). -/
structure SchedulerState where
  nextStartTime : ℚ
  audioSources : List SourceNode
deriving DecidableEq, Repr

/-- stop() on an AudioBufferSourceNode; throws when the node already
finished playing in a race. -/
def stopNode (s : SourceNode) : Except String Unit :=
  if s.stopRaises then Except.error "InvalidStateError" else Except.ok ()

/-- The per-voice statement try s.stop() catch (e) (empty handler): the
stop error is swallowed. -/
def stopSwallow (s : SourceNode) : Except String Unit :=
  match stopNode s with
  | Except.ok _ => Except.ok ()
  | Except.error _ => Except.ok ()

/-- forEach over the in-flight set: attempt a stop on every source, in
order, propagating an exception if one escaped the per-voice handler.
Returns the ids of the sources whose stop was attempted. -/
def stopEach : List SourceNode → Except String (List Nat)
  | [] => Except.ok []
  | s :: rest =>
      match stopSwallow s with
      | Except.error e => Except.error e
      | Except.ok _ =>
          match stopEach rest with
          | Except.error e => Except.error e
          | Except.ok ids => Except.ok (s.id :: ids)

/-- The interrupted branch of onmessage: force-stop every in-flight
source (errors swallowed), clear the set, reset the watermark to 0. -/
def onInterrupted (st : SchedulerState) :
    Except String (List Nat × SchedulerState) :=
  match stopEach st.audioSources with
  | Except.error e => Except.error e
  | Except.ok ids =>
      Except.ok (ids, { nextStartTime := 0, audioSources := [] })

theorem stopEach_ok (l : List SourceNode) :
    stopEach l = Except.ok (l.map SourceNode.id) := by
  induction l with
  | nil => rfl
  | cons s rest ih =>
    simp only [stopEach, stopSwallow, stopNode]
    cases h : s.stopRaises <;> simp [h, ih]

/-- C3: for every in-flight set (empty, one, or many sources, whether or
not each individual stop throws), the interrupt handler attempts a
force-stop of every source, swallows every stop error (it never
propagates an exception), and terminates with the in-flight set empty and
the watermark reset to zero. -/
theorem onInterrupted_clears_all (st : SchedulerState) :
    onInterrupted st =
      Except.ok (st.audioSources.map SourceNode.id,
        { nextStartTime := 0, audioSources := [] }) := by
  simp [onInterrupted, stopEach_ok]

/-! ## Session lifecycle (src/App.tsx)

The refs of the App component and the stopSession / startSession
routines, lines 26-74 and 76-256. -/

/-- An AudioContext: the configured rate and whether close() has run. -/
structure AudioContext where
  sampleRate : ℚ
  closed : Bool
deriving DecidableEq, Repr

/-- A MediaStream: one stopped flag per track. -/
structure MediaStream where
  trackStopped : List Bool
deriving DecidableEq, Repr

/-- The observable session state of the App component: status, error
message, and every ref that stopSession and startSession touch. -/
structure AppState where
  status : ConnectionStatus
  errorMsg : Option String
  isScreenSharing : Bool
  audioContextIn : Option AudioContext
  audioContextOut : Option AudioContext
  session : Option Nat
  stream : Option MediaStream
  screenStream : Option MediaStream
  frameInterval : Option Nat
  nextStartTime : ℚ
  audioSources : List SourceNode
deriving DecidableEq, Repr

/-- The state of the freshly mounted component (all refs null). -/
def initialAppState : AppState :=
  { status := ConnectionStatus.disconnected
    errorMsg := none
    isScreenSharing := false
    audioContextIn := none
    audioContextOut := none
    session := none
    stream := none
    screenStream := none
    frameInterval := none
    nextStartTime := 0
    audioSources := [] }

/-- stopSession (src/App.tsx lines 44-74): clear the frame timer, drop the
session handle, stop the mic and screen tracks and null their refs,
force-stop and clear the in-flight sources, close both audio contexts
(their refs are NOT nulled), set status disconnected and screen-sharing
false.  nextStartTimeRef is not touched. -/
def stopSession (st : AppState) : AppState :=
  { status := ConnectionStatus.disconnected
    errorMsg := st.errorMsg
    isScreenSharing := false
    audioContextIn := st.audioContextIn.map (fun c => { c with closed := true })
    audioContextOut := st.audioContextOut.map (fun c => { c with closed := true })
    session := none
    stream := none
    screenStream := none
    frameInterval := none
    nextStartTime := st.nextStartTime
    audioSources := [] }

/-- C4: stopSession is idempotent: two consecutive invocations produce the
same observable end state (status, error, sharing flag, timer, session
handle, streams, in-flight set, audio contexts, watermark) as one, and in
particular invoking it on an already torn-down, disconnected state changes
nothing. -/
theorem stopSession_idempotent (st : AppState) :
    stopSession (stopSession st) = stopSession st := by
  obtain ⟨s, e, sh, ci, co, se, str, scr, fi, w, src⟩ := st
  cases ci <;> cases co <;> rfl

/-- The inbound-audio branch of onmessage (src/App.tsx lines 201-218).
payload is the optional inlineData of the message; the guard at line 202
is if (base64Audio and audioContextOutRef.current).  currentTime is the
output device clock and srcId a fresh node id.  The returned flag records
whether the handler went on to build and schedule a voice. -/
def onMessageAudio (st : AppState) (payload : Option (List Nat))
    (currentTime : ℚ) (srcId : Nat) : AppState × Bool :=
  match payload, st.audioContextOut with
  | some bytes, some _ =>
      match decodeAudioData bytes 24000 1 with
      | Except.error _ =>
          -- the awaited decode rejects: the rest of the handler is skipped
          ({ st with nextStartTime := max st.nextStartTime currentTime }, true)
      | Except.ok buf =>
          ({ st with
              nextStartTime := max st.nextStartTime currentTime + buf.duration
              audioSources := st.audioSources ++ [{ id := srcId, stopRaises := false }] },
            true)
  | _, _ => (st, false)

/-- A populated connected session used as a concrete test state. -/
def connectedAppState : AppState :=
  { status := ConnectionStatus.connected
    errorMsg := none
    isScreenSharing := true
    audioContextIn := some { sampleRate := 16000, closed := false }
    audioContextOut := some { sampleRate := 24000, closed := false }
    session := some 1
    stream := some { trackStopped := [false] }
    screenStream := some { trackStopped := [false] }
    frameInterval := some 1
    nextStartTime := 3
    audioSources := [{ id := 0, stopRaises := false }] }

/-- C5 (code bug evidence): after stopSession has torn the session down,
the output-context ref is still non-null (stopSession closes the context
but never nulls the ref), so a stray inbound-audio callback passes the
line-202 guard and goes on to build and schedule a voice against the
closed context, instead of detecting the torn-down state and no-oping. -/
theorem onMessageAudio_after_stop_still_schedules :
    (stopSession connectedAppState).audioContextOut =
      some { sampleRate := 24000, closed := true } ∧
    (onMessageAudio (stopSession connectedAppState) (some [0, 0]) 0 7).2 = true ∧
    (onMessageAudio (stopSession connectedAppState) (some [0, 0]) 0 7).1.audioSources =
      [{ id := 7, stopRaises := false }] := by
  refine ⟨rfl, rfl, ?_⟩
  simp [onMessageAudio, stopSession, connectedAppState, decodeAudioData]

/-- C9: a malformed inbound audio payload (byte length not a multiple of
2) delivered to a session whose output context is live makes the decode
step fail with a DecodeError; the handler (which is total: no crash)
drops the chunk: no voice is scheduled, the in-flight set, the status and
every other field are unchanged, and the watermark is only re-anchored by
max with the device clock, never advanced by a buffer duration. -/
theorem malformed_chunk_dropped (st : AppState) (ctx : AudioContext)
    (bytes : List Nat) (currentTime : ℚ) (srcId : Nat)
    (hctx : st.audioContextOut = some ctx)
    (hm : bytes.length % 2 ≠ 0) :
    decodeAudioData bytes 24000 1 = Except.error "DecodeError" ∧
    onMessageAudio st (some bytes) currentTime srcId =
      ({ st with nextStartTime := max st.nextStartTime currentTime }, true) := by
  have hdec : decodeAudioData bytes 24000 1 = Except.error "DecodeError" := by
    simp only [decodeAudioData, Nat.mul_comm, Nat.one_mul]
    rw [if_neg hm]
  refine ⟨hdec, ?_⟩
  simp only [onMessageAudio, hctx, hdec]

/-- Witness for C9: a 3-byte payload on the concrete connected state is
dropped with the watermark re-anchored to the device clock 5. -/
theorem malformed_chunk_dropped_witness :
    (connectedAppState.audioContextOut = some { sampleRate := 24000, closed := false } ∧
      [0, 0, 0].length % 2 ≠ 0) ∧
    onMessageAudio connectedAppState (some [0, 0, 0]) 5 7 =
      ({ connectedAppState with nextStartTime := max connectedAppState.nextStartTime 5 },
        true) :=
  ⟨⟨rfl, by decide⟩,
    (malformed_chunk_dropped connectedAppState _ [0, 0, 0] 5 7 rfl (by decide)).2⟩

/-! ## Session start (src/App.tsx lines 76-256)

startSession sets status connecting, throws early if getDisplayMedia is
unsupported, then acquires in order: both audio contexts, the microphone
stream, the display stream, and finally awaits the channel connection.
The catch block (lines 250-255) only records the error message, sets
status disconnected and clears the screen-sharing flag. -/

/-- The point at which the session start transition fails. -/
inductive StartFailure where
  | screenUnsupported
  | micDenied
  | displayDenied
  | connectFailed
deriving DecidableEq, Repr

/-- startSession from the freshly mounted state.  msg is the message of
the caught error as surfaced by the code (err.message, possibly rewrapped
at lines 106-112).  none means every acquisition and the connect
succeeded; the success state reflects the wiring done in onopen. -/
def startSession (st : AppState) (msg : String) :
    Option StartFailure → AppState
  | some StartFailure.screenUnsupported =>
      -- thrown before any acquisition
      { st with
          status := ConnectionStatus.disconnected
          errorMsg := some msg
          isScreenSharing := false }
  | some StartFailure.micDenied =>
      -- both audio contexts were created before getUserMedia threw
      { st with
          status := ConnectionStatus.disconnected
          errorMsg := some msg
          isScreenSharing := false
          audioContextIn := some { sampleRate := 16000, closed := false }
          audioContextOut := some { sampleRate := 24000, closed := false } }
  | some StartFailure.displayDenied =>
      -- contexts and mic stream acquired before getDisplayMedia threw
      { st with
          status := ConnectionStatus.disconnected
          errorMsg := some msg
          isScreenSharing := false
          audioContextIn := some { sampleRate := 16000, closed := false }
          audioContextOut := some { sampleRate := 24000, closed := false }
          stream := some { trackStopped := [false] } }
  | some StartFailure.connectFailed =>
      -- everything acquired; await sessionPromise rejected
      { st with
          status := ConnectionStatus.disconnected
          errorMsg := some msg
          isScreenSharing := false
          audioContextIn := some { sampleRate := 16000, closed := false }
          audioContextOut := some { sampleRate := 24000, closed := false }
          stream := some { trackStopped := [false] }
          screenStream := some { trackStopped := [false] } }
  | none =>
      { st with
          status := ConnectionStatus.connected
          errorMsg := none
          isScreenSharing := true
          audioContextIn := some { sampleRate := 16000, closed := false }
          audioContextOut := some { sampleRate := 24000, closed := false }
          stream := some { trackStopped := [false] }
          screenStream := some { trackStopped := [false] }
          session := some 1
          frameInterval := some 1 }

/-- C1 counterexample: when the display-stream acquisition throws, the
session status ends disconnected, not error, and the resources acquired
before the failure point are not released: the microphone stream is still
held with a live (unstopped) track and both audio contexts are still open.
This refutes the claim that the status ends in the error state with every
previously acquired resource released. -/
theorem startSession_failure_counterexample :
    (startSession initialAppState "Permission denied."
        (some StartFailure.displayDenied)).status ≠ ConnectionStatus.error ∧
    (startSession initialAppState "Permission denied."
        (some StartFailure.displayDenied)).status = ConnectionStatus.disconnected ∧
    (startSession initialAppState "Permission denied."
        (some StartFailure.displayDenied)).stream =
      some { trackStopped := [false] } ∧
    (startSession initialAppState "Permission denied."
        (some StartFailure.displayDenied)).audioContextIn =
      some { sampleRate := 16000, closed := false } := by
  refine ⟨?_, rfl, rfl, rfl⟩
  decide

/-- C1 amended: on every acquisition failure during the start transition,
the catch handler records the error message and sets the status to
disconnected (never to error), and no resource acquired before the
failure point is released: after a microphone denial both audio contexts
remain open; after a display denial additionally the microphone stream
remains held with its track live; after a connect failure additionally
the display stream remains held with its track live. -/
theorem startSession_failure_state (st : AppState) (msg : String)
    (f : StartFailure) :
    (startSession st msg (some f)).status = ConnectionStatus.disconnected ∧
    (startSession st msg (some f)).errorMsg = some msg ∧
    (f ≠ StartFailure.screenUnsupported →
      (startSession st msg (some f)).audioContextIn =
          some { sampleRate := 16000, closed := false } ∧
        (startSession st msg (some f)).audioContextOut =
          some { sampleRate := 24000, closed := false }) ∧
    ((f = StartFailure.displayDenied ∨ f = StartFailure.connectFailed) →
      (startSession st msg (some f)).stream = some { trackStopped := [false] }) ∧
    (f = StartFailure.connectFailed →
      (startSession st msg (some f)).screenStream =
        some { trackStopped := [false] }) := by
  cases f <;> simp [startSession]

/-- Witness for C1 amended at the display-denial failure point on the
fresh state. -/
theorem startSession_failure_state_witness :
    (startSession initialAppState "e" (some StartFailure.displayDenied)).status =
        ConnectionStatus.disconnected ∧
      (startSession initialAppState "e" (some StartFailure.displayDenied)).stream =
        some { trackStopped := [false] } :=
  ⟨(startSession_failure_state initialAppState "e" StartFailure.displayDenied).1,
    (startSession_failure_state initialAppState "e"
      StartFailure.displayDenied).2.2.2.1 (Or.inl rfl)⟩

/-! ## Teardown step trace (src/App.tsx lines 44-74)

The statements of stopSession in source order, with an explicit exception
semantics: the code wraps only the per-voice s.stop() calls in try/catch
(line 65); every other statement is unprotected, so an exception raised by
one of them propagates out of stopSession and the remaining statements
never run. -/

/-- The individual statements of stopSession, in source order. -/
inductive StopStep where
  | clearFrameTimer
  | dropSessionHandle
  | stopMicTracks
  | stopScreenTracks
  | stopVoice (id : Nat)
  | clearVoices
  | closeContextIn
  | closeContextOut
  | setStatusDisconnected
deriving DecidableEq, Repr

/-- Whether a step is one of the per-voice stop calls (the only ones the
code protects with try/catch). -/
def isVoiceStop : StopStep → Bool
  | StopStep.stopVoice _ => true
  | _ => false

/-- The statements stopSession executes on state st when nothing raises,
in source order (each ref-guarded statement only when its ref is set). -/
def stopSteps (st : AppState) : List StopStep :=
  (if st.frameInterval.isSome then [StopStep.clearFrameTimer] else []) ++
  (if st.session.isSome then [StopStep.dropSessionHandle] else []) ++
  (if st.stream.isSome then [StopStep.stopMicTracks] else []) ++
  (if st.screenStream.isSome then [StopStep.stopScreenTracks] else []) ++
  st.audioSources.map (fun s => StopStep.stopVoice s.id) ++
  [StopStep.clearVoices] ++
  (if st.audioContextIn.isSome then [StopStep.closeContextIn] else []) ++
  (if st.audioContextOut.isSome then [StopStep.closeContextOut] else []) ++
  [StopStep.setStatusDisconnected]

/-- Run a statement list under a raise assignment: a raising step that is
not a protected per-voice stop aborts the run (it is the last step
attempted and the run is marked incomplete); a raising per-voice stop is
swallowed and the run continues. -/
def runSteps (raises : StopStep → Bool) : List StopStep → List StopStep × Bool
  | [] => ([], true)
  | s :: rest =>
      if raises s && !(isVoiceStop s) then ([s], false)
      else
        ((s :: (runSteps raises rest).1), (runSteps raises rest).2)

/-- stopSession as a step trace: the statements attempted, in order, and
whether the routine ran to completion. -/
def stopSessionRun (st : AppState) (raises : StopStep → Bool) :
    List StopStep × Bool :=
  runSteps raises (stopSteps st)

/-- C8 counterexample: on a fully populated session state, if the
mic-track-stop statement raises, teardown aborts there: the in-flight
voices are never stopped and the audio contexts are never closed, so it
is false that every step is attempted when an earlier step raises.
Moreover the no-raise trace stops the capture-device tracks BEFORE the
in-flight voices and contains no capture-encoder-halt step, not the
claimed order timer, encoder subscription, handle, voices, devices,
contexts. -/
theorem stopSession_robustness_counterexample :
    stopSessionRun connectedAppState
        (fun s => decide (s = StopStep.stopMicTracks)) =
      ([StopStep.clearFrameTimer, StopStep.dropSessionHandle,
        StopStep.stopMicTracks], false) ∧
    StopStep.closeContextOut ∉
      (stopSessionRun connectedAppState
        (fun s => decide (s = StopStep.stopMicTracks))).1 ∧
    StopStep.clearVoices ∉
      (stopSessionRun connectedAppState
        (fun s => decide (s = StopStep.stopMicTracks))).1 ∧
    stopSessionRun connectedAppState (fun _ => false) =
      ([StopStep.clearFrameTimer, StopStep.dropSessionHandle,
        StopStep.stopMicTracks, StopStep.stopScreenTracks,
        StopStep.stopVoice 0, StopStep.clearVoices,
        StopStep.closeContextIn, StopStep.closeContextOut,
        StopStep.setStatusDisconnected], true) := by
  refine ⟨?_, ?_, ?_, ?_⟩ <;> decide

/-- C8 amended: the stop routine performs, in source order: halt the
frame timer; drop the channel handle; stop the capture-device tracks
(microphone, then screen); attempt a force-stop of each in-flight voice
and clear the set; close both audio contexts; set status disconnected.
There is no separate capture-encoder-halt step.  Only the per-voice stops
are protected: whenever at most per-voice stops raise, every step is
attempted and teardown completes; an exception in any unprotected step
ends the run at that step. -/
theorem stopSession_steps (st : AppState) (raises : StopStep → Bool)
    (h : ∀ s, raises s = true → isVoiceStop s = true) :
    stopSessionRun st raises = (stopSteps st, true) := by
  have hrun : ∀ l : List StopStep, runSteps raises l = (l, true) := by
    intro l
    induction l with
    | nil => rfl
    | cons s rest ih =>
      simp only [runSteps, ih]
      have : (raises s && !(isVoiceStop s)) = false := by
        cases hr : raises s with
        | false => simp
        | true => simp [h s hr]
      rw [this]
      simp
  exact hrun (stopSteps st)

/-- Witness for C8 amended: on the populated state with one in-flight
voice whose stop raises, every step is still attempted and teardown
completes. -/
theorem stopSession_steps_witness :
    stopSessionRun connectedAppState (fun s => isVoiceStop s) =
      (stopSteps connectedAppState, true) :=
  stopSession_steps connectedAppState (fun s => isVoiceStop s)
    (fun _ hs => hs)

/-! ## Transcription accumulator (src/App.tsx lines 41-42 and 179-199)

Each message may carry an output or input transcription fragment (appended
to the matching accumulator ref, output taking precedence via else-if) and
a turnComplete flag.  On turnComplete, if either accumulator is non-empty,
a user entry (if non-empty) and then a model entry (if non-empty) are
appended and the list is truncated with slice(-50); both accumulators are
then reset. -/

/-- Entry role, from TranscriptionEntry in src/types.ts. -/
inductive Role where
  | user
  | model
deriving DecidableEq, Repr

/-- TranscriptionEntry from src/types.ts. -/
structure TranscriptionEntry where
  role : Role
  text : String
  timestamp : Nat
deriving DecidableEq, Repr

/-- The transcript-related component state: the visible list and the two
accumulator refs. -/
structure TranscriptState where
  transcriptions : List TranscriptionEntry
  currentInput : String
  currentOutput : String
deriving DecidableEq, Repr

/-- The transcript-relevant payload of a server message. -/
structure ServerMessage where
  outputTranscriptionText : Option String
  inputTranscriptionText : Option String
  turnComplete : Bool
deriving DecidableEq, Repr

/-- The freshly mounted transcript state. -/
def initialTranscriptState : TranscriptState :=
  { transcriptions := [], currentInput := "", currentOutput := "" }

/-- JS slice(-n): the n most recent entries of the list. -/
def lastN {α : Type} (n : Nat) (l : List α) : List α :=
  l.drop (l.length - n)

/-- Fragment accumulation (lines 179-183): output fragment appended to
the output accumulator, else input fragment to the input accumulator. -/
def applyFragment (st : TranscriptState) (m : ServerMessage) : TranscriptState :=
  match m.outputTranscriptionText with
  | some t => { st with currentOutput := st.currentOutput ++ t }
  | none =>
      match m.inputTranscriptionText with
      | some t => { st with currentInput := st.currentInput ++ t }
      | none => st

/-- The transcript part of onmessage (lines 179-199). -/
def onTranscript (st : TranscriptState) (m : ServerMessage) (now : Nat) :
    TranscriptState :=
  let st1 := applyFragment st m
  if m.turnComplete then
    { transcriptions :=
        if st1.currentInput ≠ "" ∨ st1.currentOutput ≠ "" then
          lastN 50 (st1.transcriptions ++
            (if st1.currentInput ≠ "" then
              [{ role := Role.user, text := st1.currentInput, timestamp := now }]
             else []) ++
            (if st1.currentOutput ≠ "" then
              [{ role := Role.model, text := st1.currentOutput, timestamp := now }]
             else []))
        else st1.transcriptions
      currentInput := ""
      currentOutput := "" }
  else st1

/-- The entries a turnComplete flush appends, as the claim words it: the
accumulated user fragment if non-empty, then the accumulated model
fragment if non-empty. -/
def flushEntries (st : TranscriptState) (now : Nat) : List TranscriptionEntry :=
  (if st.currentInput ≠ "" then
    [{ role := Role.user, text := st.currentInput, timestamp := now }]
   else []) ++
  (if st.currentOutput ≠ "" then
    [{ role := Role.model, text := st.currentOutput, timestamp := now }]
   else [])

theorem lastN_length_le {α : Type} (n : Nat) (l : List α) :
    (lastN n l).length ≤ n := by
  simp only [lastN, List.length_drop]
  omega

theorem applyFragment_transcriptions (st : TranscriptState) (m : ServerMessage) :
    (applyFragment st m).transcriptions = st.transcriptions := by
  unfold applyFragment
  cases m.outputTranscriptionText <;> cases m.inputTranscriptionText <;> rfl

/-- A bare turnComplete message (no transcription fragments). -/
def turnCompleteMsg : ServerMessage :=
  { outputTranscriptionText := none
    inputTranscriptionText := none
    turnComplete := true }

theorem onTranscript_length_le (st : TranscriptState) (m : ServerMessage)
    (now : Nat) (h : st.transcriptions.length ≤ 50) :
    (onTranscript st m now).transcriptions.length ≤ 50 := by
  cases htc : m.turnComplete
  · simpa [onTranscript, htc, applyFragment_transcriptions] using h
  · simp only [onTranscript, htc, if_true]
    split
    · exact lastN_length_le 50 _
    · rw [applyFragment_transcriptions]
      exact h

/-- C10: the visible transcription list never exceeds 50 entries on any
message sequence from the initial state; every turnComplete message
resets both accumulators; a turnComplete flush with at least one
non-empty accumulator appends the accumulated user fragment (if
non-empty) and then the accumulated model fragment (if non-empty) and
keeps the 50 most recent entries; a turnComplete with both accumulators
empty leaves the list unchanged. -/
theorem transcriptions_bounded_and_flushed :
    (∀ msgs : List (ServerMessage × Nat),
      ((msgs.foldl (fun s p => onTranscript s p.1 p.2)
        initialTranscriptState).transcriptions).length ≤ 50) ∧
    (∀ st : TranscriptState, ∀ m : ServerMessage, ∀ now : Nat,
      m.turnComplete = true →
        (onTranscript st m now).currentInput = "" ∧
        (onTranscript st m now).currentOutput = "") ∧
    (∀ st : TranscriptState, ∀ now : Nat,
      st.currentInput ≠ "" ∨ st.currentOutput ≠ "" →
        onTranscript st turnCompleteMsg now =
          { transcriptions := lastN 50 (st.transcriptions ++ flushEntries st now)
            currentInput := ""
            currentOutput := "" }) ∧
    (∀ st : TranscriptState, ∀ now : Nat,
      st.currentInput = "" → st.currentOutput = "" →
        (onTranscript st turnCompleteMsg now).transcriptions =
          st.transcriptions) := by
  refine ⟨?_, ?_, ?_, ?_⟩
  · intro msgs
    have h : ∀ st : TranscriptState, st.transcriptions.length ≤ 50 →
        ((msgs.foldl (fun s p => onTranscript s p.1 p.2) st).transcriptions).length ≤ 50 := by
      induction msgs with
      | nil => intro st h; exact h
      | cons p rest ih =>
        intro st h
        exact ih _ (onTranscript_length_le st p.1 p.2 h)
    exact h initialTranscriptState (by simp [initialTranscriptState])
  · intro st m now htc
    simp [onTranscript, htc]
  · intro st now h
    simp only [onTranscript, turnCompleteMsg, applyFragment, if_true]
    rw [if_pos h]
    simp [flushEntries, List.append_assoc]
  · intro st now h1 h2
    simp [onTranscript, turnCompleteMsg, applyFragment, h1, h2]

/-- Witness for C10: a flush on a state with one entry and both
accumulators set appends the user entry, then the model entry. -/
theorem transcriptions_flush_witness :
    onTranscript
        { transcriptions := [{ role := Role.model, text := "s", timestamp := 0 }]
          currentInput := "u"
          currentOutput := "m" }
        turnCompleteMsg 3 =
      { transcriptions :=
          [{ role := Role.model, text := "s", timestamp := 0 },
           { role := Role.user, text := "u", timestamp := 3 },
           { role := Role.model, text := "m", timestamp := 3 }]
        currentInput := ""
        currentOutput := "" } := by
  have h := transcriptions_bounded_and_flushed.2.2.1
    { transcriptions := [{ role := Role.model, text := "s", timestamp := 0 }]
      currentInput := "u"
      currentOutput := "m" } 3 (by simp)
  rw [h]
  simp [lastN, flushEntries]

end TutorPhone
